import Mathlib

/-!
Verification of the parseable-interface module loader
(lib/Frontend/ParseableInterfaceModuleLoader.cpp).

The development shallowly embeds the loader's data model and operations:
filesystem access becomes an explicit `FS` record of `stat` and `openFile`
functions, buffers are abstracted by the semantic facts the loader queries
of them (serialized-AST magic, validation result with embedded dependency
list, YAML parse result, xxHash64 of the contents), and machine integers
(sizes, mtimes, 64-bit hashes) are `Nat`, with `% 2^64` applied where the
source truncates.  External collaborators (the LLVM path library, the
serializer, the YAML layer, xxHash64) are modelled by the interface the
loader consumes, never by the spec text.
-/

namespace PIML

/-! ## Path utilities (model of llvm::sys::path, posix style) -/

/-- Structural prefix test on strings (the StringRef::startswith the
source uses). -/
def strStartsWith (s pre : String) : Bool :=
  pre.data.isPrefixOf s.data

/-- Structural suffix test on strings. -/
def strEndsWith (s suf : String) : Bool :=
  suf.data.isSuffixOf s.data

/-- Split a character list at every occurrence of `c` (model of the
component-splitting done by the llvm path iterators). -/
def splitChars (c : Char) : List Char → List (List Char)
  | [] => [[]]
  | x :: xs =>
    match splitChars c xs with
    | [] => [[]]
    | h :: t => if x = c then [] :: h :: t else (x :: h) :: t

/-- Split a path string on the posix separator. -/
def splitSlash (s : String) : List String :=
  (splitChars '/' s.data).map String.mk

/-- Join string pieces with the posix separator. -/
def joinSlash : List String → String
  | [] => ""
  | [s] => s
  | s :: rest => s ++ "/" ++ joinSlash rest

/-- Model of llvm::sys::path::filename: the last path component. -/
def pathFilename (p : String) : String :=
  (splitSlash p).getLastD ""

/-- Model of llvm::sys::path::parent_path: the path with its last
component removed. -/
def parentPath (p : String) : String :=
  joinSlash (splitSlash p).dropLast

/-- Model of llvm::sys::path::extension: the suffix of the filename from
its last dot (inclusive), empty when the filename has no dot or is one of
the special names. -/
def pathExtension (p : String) : String :=
  let f := pathFilename p
  if f = "." ∨ f = ".." then ""
  else
    let parts := splitChars '.' f.data
    if parts.length ≤ 1 then "" else "." ++ String.mk (parts.getLastD [])

/-- Model of llvm::sys::path::append of one component: inserts a
separator when the accumulated path is nonempty and does not already end
with one. -/
def joinPath (a b : String) : String :=
  if a = "" then b
  else if strEndsWith a "/" then a ++ b
  else a ++ "/" ++ b

/-- Path components as iterated by the llvm path iterators: a leading
root component for absolute paths, then the nonempty segments. -/
def pathComponents (p : String) : List String :=
  let parts := (splitSlash p).filter (fun s => s ≠ "")
  if strStartsWith p "/" then "/" :: parts else parts

/-! ## Data model -/

/-- Result of a successful `stat` call: the two fields the loader
consumes.  `mtime` is the opaque 64-bit tick value
`getLastModificationTime().time_since_epoch().count()`. -/
structure FileStat where
  size : Nat
  mtime : Nat
  deriving DecidableEq, Repr

/-- The verifier of a `SerializationOptions::FileDependency`: exactly one
of a modification time or an xxHash64 content hash. -/
inductive DepVerifier where
  | modTime (t : Nat)
  | contentHash (h : Nat)
  deriving DecidableEq, Repr

/-- Model of `SerializationOptions::FileDependency`. -/
structure FileDependency where
  path : String
  sdkRelative : Bool
  size : Nat
  verifier : DepVerifier
  deriving DecidableEq, Repr

/-- Dependency entry of a forwarding module: path, size and mtime
(ForwardingModule::Dependency). -/
structure FwdDependency where
  path : String
  size : Nat
  lastModificationTime : Nat
  deriving DecidableEq, Repr

/-- Model of `ForwardingModule`: the YAML record stored in the user cache
pointing at a module in the prebuilt cache. -/
structure ForwardingModule where
  underlyingModulePath : String
  dependencies : List FwdDependency
  version : Nat
  deriving DecidableEq, Repr

/-- A file buffer, abstracted by the semantic facts the loader queries of
it: whether `serialization::isSerializedAST` sees the magic prefix,
whether `serialization::validateSerializedAST` succeeds (and with which
embedded dependency list), whether the YAML layer parses the buffer as a
`ForwardingModule` (before the version gate of `ForwardingModule::load`),
and the xxHash64 of the contents. -/
structure Buffer where
  hasMagic : Bool
  validAST : Option (List FileDependency)
  fwdParse : Option ForwardingModule
  hash : Nat
  deriving DecidableEq, Repr

/-- Errors of `getBufferForFile`; the discovery pipeline distinguishes
`no_such_file_or_directory` from every other error. -/
inductive OpenErr where
  | notFound
  | other
  deriving DecidableEq, Repr

/-- Result of opening a file. -/
inductive OpenResult where
  | ok (buf : Buffer)
  | err (e : OpenErr)
  deriving DecidableEq, Repr

/-- Filesystem state: the two operations the loader performs. -/
structure FS where
  stat : String → Option FileStat
  openFile : String → OpenResult

/-- The state of a `ParseableInterfaceModuleLoaderImpl`: the filesystem,
the SDK root, the interface path and the prebuilt cache directory. -/
structure LoaderCtx where
  fs : FS
  sdkPath : String
  interfacePath : String
  prebuiltCacheDir : String

/-! ## Dependency freshness checker -/

/-- Resolution of a dependency path: SDK-relative paths are appended to
the current SDK root (the `SDKRelativeBuffer` logic of
`dependenciesAreUpToDate`). -/
def resolveDepPath (ctx : LoaderCtx) (dep : FileDependency) : String :=
  if dep.sdkRelative then joinPath ctx.sdkPath dep.path else dep.path

/-- Translation of
`ParseableInterfaceModuleLoaderImpl::dependencyIsUpToDate` (lines
717-740): stat, compare sizes, then compare the mtime exactly for
mtime-based records, or open the file and compare its xxHash64 for
hash-based records. -/
def dependencyIsUpToDate (ctx : LoaderCtx) (dep : FileDependency)
    (fullPath : String) : Bool :=
  match ctx.fs.stat fullPath with
  | none => false
  | some st =>
    if st.size ≠ dep.size then false
    else
      match dep.verifier with
      | .modTime t => st.mtime == t
      | .contentHash h =>
        match ctx.fs.openFile fullPath with
        | .err _ => false
        | .ok buf => buf.hash == h

/-- Translation of
`ParseableInterfaceModuleLoaderImpl::dependenciesAreUpToDate` (lines
744-763): every dependency must be up to date at its resolved path. -/
def dependenciesAreUpToDate (ctx : LoaderCtx)
    (deps : List FileDependency) : Bool :=
  deps.all fun dep => dependencyIsUpToDate ctx dep (resolveDepPath ctx dep)

/-- The freshness condition as the specification words it: stat succeeds
with the recorded size, and the mtime matches exactly for mtime records
while the xxHash64 of the contents matches for hash records. -/
def depUpToDateSpec (ctx : LoaderCtx) (dep : FileDependency) : Prop :=
  ∃ st, ctx.fs.stat (resolveDepPath ctx dep) = some st ∧
    st.size = dep.size ∧
    (match dep.verifier with
     | .modTime t => st.mtime = t
     | .contentHash h =>
        ∃ buf, ctx.fs.openFile (resolveDepPath ctx dep) = .ok buf ∧
          buf.hash = h)

/-! ## Module validation helpers -/

/-- Translation of
`ParseableInterfaceModuleLoaderImpl::serializedASTBufferIsUpToDate`
(lines 767-777): validate the buffer as a serialized AST, extracting its
embedded dependency list, then check every dependency. -/
def serializedASTBufferIsUpToDate (ctx : LoaderCtx) (buf : Buffer) : Bool :=
  match buf.validAST with
  | none => false
  | some deps => dependenciesAreUpToDate ctx deps

/-- Translation of
`ParseableInterfaceModuleLoaderImpl::swiftModuleIsUpToDate` (lines
781-789): open the module on disk and validate the buffer; the buffer is
returned on success (the source moves it into the out-parameter). -/
def swiftModuleIsUpToDate (ctx : LoaderCtx) (modulePath : String) :
    Option Buffer :=
  match ctx.fs.openFile modulePath with
  | .err _ => none
  | .ok buf =>
    if serializedASTBufferIsUpToDate ctx buf then some buf else none

/-- Model of `ForwardingModule::load` applied to a buffer (lines
136-148): the YAML parse is abstracted by `Buffer.fwdParse`; a parsed
record with any version other than 1 is rejected
(`std::errc::not_supported`). -/
def loadFwdBuffer (b : Buffer) : Option ForwardingModule :=
  match b.fwdParse with
  | none => none
  | some fwd => if fwd.version = 1 then some fwd else none

/-- Translation of
`ParseableInterfaceModuleLoaderImpl::forwardingModuleIsUpToDate` (lines
794-816): the underlying module must open and look like a valid
serialized AST; every dependency of the forwarding record is converted
to an mtime-based, non-SDK-relative `FileDependency` and checked; the
underlying module's buffer is returned on success. -/
def forwardingModuleIsUpToDate (ctx : LoaderCtx) (fwd : ForwardingModule) :
    Option Buffer :=
  match ctx.fs.openFile fwd.underlyingModulePath with
  | .err _ => none
  | .ok modBuf =>
    if modBuf.validAST.isSome then
      if dependenciesAreUpToDate ctx
          (fwd.dependencies.map fun d =>
            { path := d.path, sdkRelative := false, size := d.size,
              verifier := .modTime d.lastModificationTime }) then
        some modBuf
      else none
    else none

/-! ## Prebuilt module path -/

/-- Translation of
`ParseableInterfaceModuleLoaderImpl::computePrebuiltModulePath` (lines
818-846): only available when the SDK path is nonempty and its
components are a prefix of the interface path's components; the
candidate starts from the prebuilt cache directory, inserts the
interface's parent directory name when that name carries the
`.swiftmodule` extension, and ends with the filename of the module
path. -/
def computePrebuiltModulePath (ctx : LoaderCtx) (modulePath : String) :
    Option String :=
  if ctx.sdkPath = "" ∨
      ¬ ((pathComponents ctx.sdkPath).isPrefixOf
          (pathComponents ctx.interfacePath) = true) then
    none
  else
    let scratch := ctx.prebuiltCacheDir
    let inParentDirName := pathFilename (parentPath ctx.interfacePath)
    let scratch :=
      if pathExtension inParentDirName = ".swiftmodule" then
        joinPath scratch inParentDirName
      else scratch
    some (joinPath scratch (pathFilename modulePath))

/-! ## Discovery pipeline -/

/-- The four-valued load-mode gate (`swift::ModuleLoadingMode`). -/
inductive LoadingMode where
  | preferParseable
  | preferSerialized
  | onlyParseable
  | onlySerialized
  deriving DecidableEq, Repr

/-- The result of a successful discovery (`DiscoveredModule`): where the
serialized module lives and the kind of probe that found it. -/
inductive DiscoveredModule where
  | normal (path : String) (moduleBuffer : Buffer)
  | prebuilt (path : String) (moduleBuffer : Buffer)
  | forwarded (path : String) (moduleBuffer : Buffer)
  deriving DecidableEq, Repr

/-- Error codes produced by the discovery pipeline:
`no_such_file_or_directory` (NotFound) and `not_supported`
(the defer-to-the-serialized-loader sentinel). -/
inductive DiscErr where
  | notFound
  | notSupported
  deriving DecidableEq, Repr

/-- Outcome of `discoverUpToDateModuleForInterface`. -/
inductive DiscOutcome where
  | found (m : DiscoveredModule)
  | failed (e : DiscErr)
  deriving DecidableEq, Repr

/-- Translation of
`ParseableInterfaceModuleLoaderImpl::discoverUpToDateModuleForInterface`
(lines 850-936), in source order: the mode gate, then the cached-output
probe (serialized AST or forwarding module), then the prebuilt-cache
probe, then the adjacent-module probe.  `OnlySerialized` is
`llvm_unreachable` in the source; the translation lets it fall to
NotFound. -/
def discover (ctx : LoaderCtx) (modulePath cachedOutputPath : String)
    (mode : LoadingMode) : DiscOutcome :=
  match mode with
  | .onlyParseable => .failed .notFound
  | .onlySerialized => .failed .notFound
  | m =>
    let shouldLoadAdjacentModule := m = LoadingMode.preferSerialized
    let afterCache : Option DiscoveredModule :=
      match ctx.fs.openFile cachedOutputPath with
      | .err _ => none
      | .ok buf =>
        if buf.hasMagic = false then
          match loadFwdBuffer buf with
          | some fwd =>
            match forwardingModuleIsUpToDate ctx fwd with
            | some moduleBuffer =>
              some (.forwarded fwd.underlyingModulePath moduleBuffer)
            | none => none
          | none => none
        else if serializedASTBufferIsUpToDate ctx buf then
          some (.normal cachedOutputPath buf)
        else none
    match afterCache with
    | some m2 => .found m2
    | none =>
      let afterPrebuilt : Option DiscoveredModule :=
        if ctx.prebuiltCacheDir ≠ "" then
          match computePrebuiltModulePath ctx modulePath with
          | some p =>
            match swiftModuleIsUpToDate ctx p with
            | some buf => some (.prebuilt p buf)
            | none => none
          | none => none
        else none
      match afterPrebuilt with
      | some m2 => .found m2
      | none =>
        if shouldLoadAdjacentModule = false then .failed .notFound
        else
          match ctx.fs.openFile modulePath with
          | .ok buf =>
            if serializedASTBufferIsUpToDate ctx buf then
              .failed .notSupported
            else .failed .notFound
          | .err e =>
            if e = OpenErr.notFound then .failed .notFound
            else .failed .notSupported

/-! ## The ordered-probe reading of discovery (specification side) -/

/-- The user-cache probe as the specification describes it: open the
cached output path; with the serialized-AST magic, validate and check
freshness for a `Normal` hit; without it, parse as a forwarding module,
and check the forwarding record for a `Forwarded` hit. -/
def userCacheProbe (ctx : LoaderCtx) (cachedOutputPath : String) :
    Option DiscoveredModule :=
  match ctx.fs.openFile cachedOutputPath with
  | .err _ => none
  | .ok buf =>
    if buf.hasMagic = false then
      match loadFwdBuffer buf with
      | some fwd =>
        match forwardingModuleIsUpToDate ctx fwd with
        | some moduleBuffer =>
          some (.forwarded fwd.underlyingModulePath moduleBuffer)
        | none => none
      | none => none
    else if serializedASTBufferIsUpToDate ctx buf then
      some (.normal cachedOutputPath buf)
    else none

/-- The prebuilt-cache probe as the specification describes it: gated on
a nonempty prebuilt directory, the SDK-prefix condition, and an
up-to-date module at the candidate path. -/
def prebuiltProbe (ctx : LoaderCtx) (modulePath : String) :
    Option DiscoveredModule :=
  if ctx.prebuiltCacheDir ≠ "" then
    match computePrebuiltModulePath ctx modulePath with
    | some p =>
      match swiftModuleIsUpToDate ctx p with
      | some buf => some (.prebuilt p buf)
      | none => none
    | none => none
  else none

/-- The adjacent-binary probe's error verdict: an up-to-date sibling
defers with NotSupported; a sibling that cannot even be opened (for any
error other than not-found) defers with NotSupported; a readable but
stale or invalid sibling, or an absent one, is a miss (NotFound). -/
def adjacentOutcome (ctx : LoaderCtx) (modulePath : String) : DiscErr :=
  match ctx.fs.openFile modulePath with
  | .ok buf =>
    if serializedASTBufferIsUpToDate ctx buf then .notSupported
    else .notFound
  | .err e => if e = OpenErr.notFound then .notFound else .notSupported

/-- The adjacent-binary probe: it never yields a discovered module of its
own, only the defer-or-miss verdict of `adjacentOutcome`. -/
def adjacentProbeResult (ctx : LoaderCtx) (modulePath : String) :
    DiscOutcome :=
  match ctx.fs.openFile modulePath with
  | .ok buf =>
    if serializedASTBufferIsUpToDate ctx buf then
      .failed .notSupported
    else .failed .notFound
  | .err e =>
    if e = OpenErr.notFound then .failed .notFound
    else .failed .notSupported

/-- The discovery policy as the specification words it: OnlyInterface
returns NotFound immediately; PreferInterface composes the two cache
probes and never consults the adjacent binary; PreferBinary composes all
three probes in order. -/
def discoverSpec (ctx : LoaderCtx) (modulePath cachedOutputPath : String)
    (mode : LoadingMode) : DiscOutcome :=
  match mode with
  | .onlyParseable => .failed .notFound
  | .onlySerialized => .failed .notFound
  | .preferParseable =>
    match userCacheProbe ctx cachedOutputPath with
    | some m => .found m
    | none =>
      match prebuiltProbe ctx modulePath with
      | some m => .found m
      | none => .failed .notFound
  | .preferSerialized =>
    match userCacheProbe ctx cachedOutputPath with
    | some m => .found m
    | none =>
      match prebuiltProbe ctx modulePath with
      | some m => .found m
      | none => adjacentProbeResult ctx modulePath

/-! ## Cache key computer

`getCacheHash` (lines 672-700) feeds exactly five values into llvm's
order-sensitive `hash_combine` chain and renders the resulting 64-bit
value in base 36.  The llvm hash itself is external to this repository;
`hashMix` models it as a concrete order-sensitive 64-bit mixing
function, which preserves everything the claims quantify over: which
inputs reach the hash and in which order. -/

/-- Two to the sixty-fourth, the modulus of the 64-bit hash state. -/
def w64 : Nat := 18446744073709551616

/-- Order-sensitive 64-bit mixing step (model of llvm::hash_combine). -/
def hashMix (h x : Nat) : Nat := (h * 16777619 + x + 1) % w64

/-- Mix a string into the hash state, length-prefixed so distinct
strings mix distinctly (model of hashing a StringRef). -/
def hashString (h : Nat) (s : String) : Nat :=
  s.data.foldl (fun a c => hashMix a c.toNat) (hashMix h s.data.length)

/-- One digit of the base-36 rendering, 0-9 then A-Z (model of
llvm::APInt::toString with radix 36, unsigned). -/
def base36Digit (n : Nat) : Char :=
  if n < 10 then Char.ofNat (48 + n) else Char.ofNat (55 + n)

/-- Digits of `n` in base 36, most significant first, with explicit
fuel so concrete values evaluate by reduction. -/
def toBase36Go : Nat → Nat → List Char
  | 0, _ => []
  | fuel + 1, n =>
    if n = 0 then [] else toBase36Go fuel (n / 36) ++ [base36Digit (n % 36)]

/-- Base-36 unsigned rendering of a natural number. -/
def toBase36 (n : Nat) : String :=
  if n = 0 then "0" else String.mk (toBase36Go 64 n)

/-- The sub-invocation state visible to `getCacheHash`.  The first five
fields are the ones the source hashes; `languageVersion` (the effective
`-swift-version`) and `interfaceContents` (the bytes of the interface
file) are carried to state what the key deliberately excludes. -/
structure SubInvocation where
  fullVersion : String
  interfacePath : String
  targetArch : String
  sdkPath : String
  trackSystemDeps : Bool
  languageVersion : String
  interfaceContents : List Nat
  deriving DecidableEq, Repr

/-- Translation of
`ParseableInterfaceModuleLoaderImpl::getCacheHash` (lines 672-700):
combine, in order, the compiler's full version string, the interface
path, the target architecture name, the SDK path and the
system-dependency-tracking flag, then render the 64-bit result in
base 36. -/
def getCacheHash (inv : SubInvocation) : String :=
  let h := hashString 14695981039346656037 inv.fullVersion
  let h := hashString h inv.interfacePath
  let h := hashString h inv.targetArch
  let h := hashString h inv.sdkPath
  let h := hashMix h (if inv.trackSystemDeps then 1 else 0)
  toBase36 h

/-- Translation of
`ParseableInterfaceModuleLoaderImpl::computeCachedOutputPath` (lines
704-713): `cacheDir/moduleName-<hash>.swiftmodule`. -/
def computeCachedOutputPath (cacheDir moduleName : String)
    (inv : SubInvocation) : String :=
  joinPath cacheDir
    (moduleName ++ "-" ++ getCacheHash inv ++ "." ++ "swiftmodule")

/-! ## Module builder: transitive dependency flattening -/

/-- The builder state visible to `collectDepsForSerialization`:
the SDK root of the sub-instance, the two cache directories and the
filesystem. -/
structure BuildCtx where
  fs : FS
  sdkPath : String
  moduleCachePath : String
  prebuiltCachePath : String

/-- Translation of `ParseableInterfaceBuilder::isCachedModule` (lines
361-370): the dependency carries the `.swiftmodule` extension and starts
with a nonempty module-cache or prebuilt-cache path. -/
def isCachedModule (ctx : BuildCtx) (depName : String) : Bool :=
  if ctx.moduleCachePath = "" ∧ ctx.prebuiltCachePath = "" then false
  else
    pathExtension depName = ".swiftmodule" ∧
      ((ctx.moduleCachePath ≠ "" ∧
          strStartsWith depName ctx.moduleCachePath = true) ∨
       (ctx.prebuiltCachePath ≠ "" ∧
          strStartsWith depName ctx.prebuiltCachePath = true))

/-- The SDK-relative rewrite of `collectDepsForSerialization` (lines
388-407): returns the path to store and the SDK-relative flag.  The
source asserts the dependency is strictly longer than the SDK path and
then indexes one past it; `none` models that out-of-range case. -/
def rewriteSDKRelative (sdkPath depName : String) :
    Option (String × Bool) :=
  if sdkPath.data.length > 1 ∧ strStartsWith depName sdkPath = true then
    match depName.data.drop sdkPath.data.length with
    | [] => none
    | c :: cs =>
      if c = '/' then some (String.mk cs, true)
      else if strEndsWith sdkPath "/" then some (String.mk (c :: cs), true)
      else some (depName, false)
  else some (depName, false)

/-- Accumulated state of one `collectDepsForSerialization` run: the
`AllDepNames` string set (as a list), the records destined for
serialization, and the (path, isSystem) pairs reported to the external
dependency tracker. -/
structure CollectState where
  seen : List String
  deps : List FileDependency
  tracked : List (String × Bool)
  deriving DecidableEq, Repr

/-- One step of the flattening loop at lines 443-450: a sub-dependency
of a cached module is emitted (and tracked) unless its stored path is
already an `AllDepNames` key. -/
def flattenStep (acc : CollectState) (subDep : FileDependency) :
    CollectState :=
  if subDep.path ∈ acc.seen then acc
  else
    { seen := acc.seen ++ [subDep.path],
      deps := acc.deps ++ [subDep],
      tracked := acc.tracked ++ [(subDep.path, subDep.sdkRelative)] }

/-- The `AllDepNames.insert(DepName)` step at line 409: a new name joins
the key set and is reported to the external dependency tracker
(system-tagged iff SDK-relative); an already-present name changes
nothing. -/
def insertName (st : CollectState) (depName : String) (isSDKRelative : Bool) :
    CollectState :=
  if depName ∉ st.seen then
    { st with
      seen := st.seen ++ [depName],
      tracked := st.tracked ++ [(depName, isSDKRelative)] }
  else st

/-- Processing of one raw dependency name by
`collectDepsForSerialization` (lines 387-474): rewrite against the SDK,
key the `AllDepNames` set on the original name, flatten cached
swiftmodules into their embedded dependency lists, and otherwise emit a
direct mtime- or hash-based record.  `none` models the `return true`
failure paths (unreadable or invalid cached module, failed stat,
unreadable hash input). -/
def collectOne (ctx : BuildCtx) (isHashBased : Bool) (st : CollectState)
    (depName : String) : Option CollectState :=
  match rewriteSDKRelative ctx.sdkPath depName with
  | none => none
  | some (depNameToStore, isSDKRelative) =>
    let st1 := insertName st depName isSDKRelative
    if isCachedModule ctx depName then
      match ctx.fs.openFile depName with
      | .err _ => none
      | .ok buf =>
        match buf.validAST with
        | none => none
        | some subDeps => some (subDeps.foldl flattenStep st1)
    else
      match ctx.fs.stat depName with
      | none => none
      | some status =>
        if isHashBased then
          match ctx.fs.openFile depName with
          | .err _ => none
          | .ok buf =>
            some { st1 with deps := st1.deps ++
                     [{ path := depNameToStore,
                        sdkRelative := isSDKRelative,
                        size := status.size,
                        verifier := .contentHash buf.hash }] }
        else
          some { st1 with deps := st1.deps ++
                   [{ path := depNameToStore,
                      sdkRelative := isSDKRelative,
                      size := status.size,
                      verifier := .modTime status.mtime }] }

/-- Left-to-right run of `collectOne` over a name list, short-circuiting
on failure. -/
def collectAll (ctx : BuildCtx) (isHashBased : Bool) :
    CollectState → List String → Option CollectState
  | st, [] => some st
  | st, d :: ds =>
    match collectOne ctx isHashBased st d with
    | none => none
    | some st2 => collectAll ctx isHashBased st2 ds

/-- Translation of
`ParseableInterfaceBuilder::collectDepsForSerialization` (lines
378-476): the initial names are the sub-instance tracker's dependencies
followed by the interface path itself. -/
def collectDepsForSerialization (ctx : BuildCtx) (isHashBased : Bool)
    (rawDeps : List String) (interfacePath : String) :
    Option CollectState :=
  collectAll ctx isHashBased
    { seen := [], deps := [], tracked := [] }
    (rawDeps ++ [interfacePath])

/-! ## Forwarding-module writer -/

/-- Stat a list of paths in order, recording path, size and mtime
(the `addDependency` closure of `writeForwardingModule`, lines 952-957).
The source dereferences the `ErrorOr` status without checking it;
`none` models the resulting undefined behaviour when a stat fails. -/
def statDeps (ctx : LoaderCtx) : List String → Option (List FwdDependency)
  | [] => some []
  | p :: ps =>
    match ctx.fs.stat p with
    | none => none
    | some st =>
      (statDeps ctx ps).map
        (fun rest =>
          { path := p, size := st.size,
            lastModificationTime := st.mtime } :: rest)

/-- Translation of
`ParseableInterfaceModuleLoaderImpl::writeForwardingModule` (lines
943-980): build a version-1 forwarding record whose dependency list
starts with the underlying prebuilt module itself, followed by every
discovered dependency at its resolved (SDK-expanded) path, each with the
size and mtime obtained by re-statting it now.  The returned value is
the record written to the cached output path; `none` models the
unchecked-stat undefined behaviour. -/
def writeForwardingModule (ctx : LoaderCtx) (modPath : String)
    (deps : List FileDependency) : Option ForwardingModule :=
  (statDeps ctx (modPath :: deps.map (resolveDepPath ctx))).map
    (fun entries =>
      { underlyingModulePath := modPath, dependencies := entries,
        version := 1 })

/-! ## YAML serialization of forwarding modules

The llvm YAML layer is external; the document model below stands for the
parsed text.  A scalar is a string or an unsigned integer, a dependency
entry is a key-scalar mapping, and the top level maps keys to scalars or
to a sequence of dependency mappings — exactly the shapes the
MappingTraits at lines 109-134 can produce or accept. -/

/-- A YAML scalar as used by the forwarding-module schema. -/
inductive YScalar where
  | s (v : String)
  | n (v : Nat)
  deriving DecidableEq, Repr

/-- One dependency mapping: keys to scalars. -/
def YDepMap := List (String × YScalar)

instance : DecidableEq YDepMap := by
  unfold YDepMap; infer_instance

/-- A top-level YAML value of the schema: a scalar or a sequence of
dependency mappings. -/
inductive YVal where
  | scalar (v : YScalar)
  | seq (items : List YDepMap)
  deriving DecidableEq

/-- A parsed YAML document: the top-level mapping. -/
def YDoc := List (String × YVal)

instance : DecidableEq YDoc := by
  unfold YDoc; infer_instance

/-- Output direction of `MappingTraits<ForwardingModule::Dependency>`
(lines 112-118): the keys mtime, path, size, in that order. -/
def serializeFwdDep (d : FwdDependency) : YDepMap :=
  [("mtime", .n d.lastModificationTime),
   ("path", .s d.path),
   ("size", .n d.size)]

/-- Output direction of `MappingTraits<ForwardingModule>` (lines
126-132): the keys path, dependencies, version, in that order. -/
def serializeFwd (fwd : ForwardingModule) : YDoc :=
  [("path", .scalar (.s fwd.underlyingModulePath)),
   ("dependencies", .seq (fwd.dependencies.map serializeFwdDep)),
   ("version", .scalar (.n fwd.version))]

/-- Key lookup in a mapping. -/
def yLookup (key : String) : List (String × YVal) → Option YVal
  | [] => none
  | (k, v) :: rest => if k = key then some v else yLookup key rest

def yLookupDep (key : String) : YDepMap → Option YScalar
  | [] => none
  | (k, v) :: rest => if k = key then some v else yLookupDep key rest

/-- Input direction of `MappingTraits<ForwardingModule::Dependency>`:
all three keys are required with the right scalar types, and the YAML
reader rejects unknown keys, so the mapping must contain exactly the
three. -/
def parseFwdDep (m : YDepMap) : Option FwdDependency :=
  match yLookupDep "mtime" m, yLookupDep "path" m, yLookupDep "size" m with
  | some (.n mt), some (.s p), some (.n sz) =>
    if (m.map Prod.fst).Nodup ∧
        ∀ k ∈ m.map Prod.fst, k = "mtime" ∨ k = "path" ∨ k = "size" then
      some { path := p, size := sz, lastModificationTime := mt }
    else none
  | _, _, _ => none

/-- Parse every dependency mapping of the sequence. -/
def parseFwdDeps : List YDepMap → Option (List FwdDependency)
  | [] => some []
  | m :: rest =>
    match parseFwdDep m, parseFwdDeps rest with
    | some d, some ds => some (d :: ds)
    | _, _ => none

/-- Input direction of `MappingTraits<ForwardingModule>`: required keys
path, dependencies and version with the right shapes, unknown top-level
keys rejected. -/
def parseFwdDoc (doc : YDoc) : Option ForwardingModule :=
  match yLookup "path" doc, yLookup "dependencies" doc,
      yLookup "version" doc with
  | some (.scalar (.s p)), some (.seq items), some (.scalar (.n v)) =>
    if (doc.map Prod.fst).Nodup ∧
        ∀ k ∈ doc.map Prod.fst,
          k = "path" ∨ k = "dependencies" ∨ k = "version" then
      (parseFwdDeps items).map
        (fun ds =>
          { underlyingModulePath := p, dependencies := ds, version := v })
    else none
  | _, _, _ => none

/-- Errors of `ForwardingModule::load`: a YAML error or the
`not_supported` verdict on an unaccepted version. -/
inductive FwdLoadErr where
  | parseError
  | notSupported
  deriving DecidableEq, Repr

/-- Result of `ForwardingModule::load`. -/
inductive FwdLoadResult where
  | ok (fwd : ForwardingModule)
  | err (e : FwdLoadErr)
  deriving DecidableEq, Repr

/-- Translation of `ForwardingModule::load` (lines 136-148): parse the
document, then reject any version other than 1 as not supported. -/
def forwardingLoad (doc : YDoc) : FwdLoadResult :=
  match parseFwdDoc doc with
  | none => .err .parseError
  | some fwd =>
    if fwd.version ≠ 1 then .err .notSupported else .ok fwd

/-! ## Specification-side definitions used by the claims -/

/-- The prebuilt candidate path as the specification words it:
`prebuilt_dir / [<parent-dir-name>/] <basename-of-module-path>`, the
optional segment present exactly when the interface's parent directory
name carries the binary-module extension.  No cache key enters. -/
def prebuiltCandidateSpec (ctx : LoaderCtx) (modulePath : String) :
    String :=
  let parentName := pathFilename (parentPath ctx.interfacePath)
  let base :=
    if pathExtension parentName = ".swiftmodule" then
      joinPath ctx.prebuiltCacheDir parentName
    else ctx.prebuiltCacheDir
  joinPath base (pathFilename modulePath)

/-- Forwarding freshness as the specification words it: the underlying
module must open and validate, and every dependency of the forwarding
record is checked by stat only — size and mtime at the recorded path,
with no SDK resolution and no read of the dependency's contents. -/
def forwardingFreshSpec (ctx : LoaderCtx) (fwd : ForwardingModule) :
    Option Buffer :=
  match ctx.fs.openFile fwd.underlyingModulePath with
  | .err _ => none
  | .ok modBuf =>
    if modBuf.validAST.isSome &&
        fwd.dependencies.all (fun d =>
          match ctx.fs.stat d.path with
          | none => false
          | some st =>
            st.size == d.size && st.mtime == d.lastModificationTime) then
      some modBuf
    else none

/-- No two adjacent separators anywhere in the character list:
the path-normalization assumption of the amended flattening claim. -/
def noAdjacentSlashes : List Char → Bool
  | [] => true
  | [_] => true
  | a :: b :: rest =>
    !(a = '/' && b = '/') && noAdjacentSlashes (b :: rest)

/-- Both cache directories are either unset or absolute. -/
def cacheDirsAbsolute (ctx : BuildCtx) : Prop :=
  (ctx.moduleCachePath = "" ∨ strStartsWith ctx.moduleCachePath "/" = true) ∧
  (ctx.prebuiltCachePath = "" ∨ strStartsWith ctx.prebuiltCachePath "/" = true)

/-- The embedded dependency lists of readable cached modules are
themselves flattened: none of their entries is again a cached-module
path.  The builder's own outputs satisfy this by construction. -/
def embeddedListsFlattened (ctx : BuildCtx) : Prop :=
  ∀ p, isCachedModule ctx p = true →
    ∀ buf, ctx.fs.openFile p = .ok buf →
      ∀ subs, buf.validAST = some subs →
        ∀ sub ∈ subs, isCachedModule ctx sub.path = false

/-! ## Concrete example states used by witnesses and counterexamples -/

/-- An empty filesystem. -/
def fsEmpty : FS :=
  { stat := fun _ => none, openFile := fun _ => .err .notFound }

/-- A loader context over the empty filesystem. -/
def ctxEmpty : LoaderCtx :=
  { fs := fsEmpty, sdkPath := "", interfacePath := "/I.swiftinterface",
    prebuiltCacheDir := "" }

/-- A buffer carrying the serialized-AST magic whose embedded dependency
on `/d` records size 99 while the file on disk has size 5: a readable
but stale module. -/
def bufStale : Buffer :=
  { hasMagic := true,
    validAST := some [{ path := "/d", sdkRelative := false, size := 99,
                        verifier := .modTime 1 }],
    fwdParse := none, hash := 0 }

/-- Filesystem with a stale adjacent module at `/M.swiftmodule` and the
dependency file `/d` of size 5. -/
def fsStaleAdjacent : FS :=
  { stat := fun p => if p = "/d" then some { size := 5, mtime := 1 } else none,
    openFile := fun p =>
      if p = "/M.swiftmodule" then .ok bufStale else .err .notFound }

/-- Loader context for the stale-adjacent scenario. -/
def ctxStaleAdjacent : LoaderCtx :=
  { fs := fsStaleAdjacent, sdkPath := "",
    interfacePath := "/M.swiftinterface", prebuiltCacheDir := "" }

/-- A valid prebuilt-module buffer with no embedded dependencies. -/
def bufValid : Buffer :=
  { hasMagic := true, validAST := some [], fwdParse := none, hash := 0 }

/-- Filesystem for the forwarding-writer examples: a valid prebuilt
module at `/pb/M.swiftmodule` (size 10, mtime 20) and a dependency `/d`
(size 1, mtime 2). -/
def fsPrebuilt : FS :=
  { stat := fun p =>
      if p = "/pb/M.swiftmodule" then some { size := 10, mtime := 20 }
      else if p = "/d" then some { size := 1, mtime := 2 }
      else none,
    openFile := fun p =>
      if p = "/pb/M.swiftmodule" then .ok bufValid else .err .notFound }

/-- Loader context for the forwarding-writer examples. -/
def ctxPrebuilt : LoaderCtx :=
  { fs := fsPrebuilt, sdkPath := "", interfacePath := "/M.swiftinterface",
    prebuiltCacheDir := "/pb" }

/-- The dependency list discovered with the prebuilt module above. -/
def depsPrebuilt : List FileDependency :=
  [{ path := "/d", sdkRelative := false, size := 1,
     verifier := .contentHash 5 }]

/-- The forwarding record `writeForwardingModule` produces for
`ctxPrebuilt`: the prebuilt module itself first, then the dependency. -/
def fwdPrebuilt : ForwardingModule :=
  { underlyingModulePath := "/pb/M.swiftmodule",
    dependencies :=
      [{ path := "/pb/M.swiftmodule", size := 10,
         lastModificationTime := 20 },
       { path := "/d", size := 1, lastModificationTime := 2 }],
    version := 1 }

/-- Loader context for the prebuilt-path witness: interface inside the
SDK. -/
def ctxSdkInterface : LoaderCtx :=
  { fs := fsEmpty, sdkPath := "/s", interfacePath := "/s/M.swiftinterface",
    prebuiltCacheDir := "/pb" }

/-- A cached module whose embedded dependency list itself names a cached
module (`/mc/B.swiftmodule`): the adversarial input of the flattening
counterexample. -/
def bufNestedCached : Buffer :=
  { hasMagic := true,
    validAST := some [{ path := "/mc/B.swiftmodule", sdkRelative := false,
                        size := 1, verifier := .modTime 1 }],
    fwdParse := none, hash := 0 }

/-- Filesystem with the adversarial cached module at
`/mc/A.swiftmodule` and a stat-able interface file. -/
def fsNestedCached : FS :=
  { stat := fun p =>
      if p = "/I.swiftinterface" then some { size := 1, mtime := 1 }
      else none,
    openFile := fun p =>
      if p = "/mc/A.swiftmodule" then .ok bufNestedCached
      else .err .notFound }

/-- Builder context whose module cache is `/mc`. -/
def ctxNestedCached : BuildCtx :=
  { fs := fsNestedCached, sdkPath := "", moduleCachePath := "/mc",
    prebuiltCachePath := "" }

/-- Builder context with two plain files, used to exercise the amended
flattening theorem on a well-formed state. -/
def ctxPlainBuild : BuildCtx :=
  { fs := { stat := fun p =>
              if p = "/a.h" then some { size := 3, mtime := 4 }
              else if p = "/I.swiftinterface" then
                some { size := 1, mtime := 1 }
              else none,
            openFile := fun _ => .err .notFound },
    sdkPath := "", moduleCachePath := "/mc", prebuiltCachePath := "" }

/-- Base invocation for the cache-key examples. -/
def invBase : SubInvocation :=
  { fullVersion := "v", interfacePath := "p", targetArch := "a",
    sdkPath := "s", trackSystemDeps := false, languageVersion := "5",
    interfaceContents := [] }

/-- Variant of invBase with a different compiler version string. -/
def invVer : SubInvocation := { invBase with fullVersion := "w" }

/-- Variant of invBase with a different interface path. -/
def invPath : SubInvocation := { invBase with interfacePath := "q" }

/-- Variant of invBase with a different target architecture. -/
def invArch : SubInvocation := { invBase with targetArch := "b" }

/-- Variant of invBase with a different SDK path. -/
def invSdk : SubInvocation := { invBase with sdkPath := "t" }

/-- Variant of invBase with system-dependency tracking enabled. -/
def invTrack : SubInvocation := { invBase with trackSystemDeps := true }

/-- Variant of invBase with different interface contents and language version
but identical key inputs. -/
def invContent : SubInvocation :=
  { invBase with languageVersion := "4", interfaceContents := [1, 2, 3] }

/-- A concrete forwarding module with version 1. -/
def fwdV1 : ForwardingModule :=
  { underlyingModulePath := "/pb/M.swiftmodule",
    dependencies := [{ path := "/d", size := 1, lastModificationTime := 2 }],
    version := 1 }

/-- A concrete forwarding module with an unsupported version. -/
def fwdV2 : ForwardingModule :=
  { underlyingModulePath := "/pb/M.swiftmodule", dependencies := [],
    version := 2 }

/-- The collect state produced for `ctxPlainBuild` on the raw list
`[/a.h]` with interface `/I.swiftinterface`. -/
def stPlainResult : CollectState :=
  { seen := ["/a.h", "/I.swiftinterface"],
    deps := [{ path := "/a.h", sdkRelative := false, size := 3,
               verifier := .modTime 4 },
             { path := "/I.swiftinterface", sdkRelative := false,
               size := 1, verifier := .modTime 1 }],
    tracked := [("/a.h", false), ("/I.swiftinterface", false)] }


/-- The per-path record the forwarding writer stores: the file's current
size and mtime at that path. -/
def statRecordOf (ctx : LoaderCtx) (p : String) (d : FwdDependency) :
    Prop :=
  ∃ st, ctx.fs.stat p = some st ∧
    d = { path := p, size := st.size, lastModificationTime := st.mtime }

/-! ## General lemmas -/

theorem dependencyIsUpToDate_iff (ctx : LoaderCtx) (dep : FileDependency) :
    dependencyIsUpToDate ctx dep (resolveDepPath ctx dep) = true ↔
      depUpToDateSpec ctx dep := by
  unfold dependencyIsUpToDate depUpToDateSpec
  cases hstat : ctx.fs.stat (resolveDepPath ctx dep) with
  | none => simp
  | some st =>
    by_cases hsz : st.size = dep.size
    · cases hver : dep.verifier with
      | modTime t =>
        constructor
        · intro hrun
          refine ⟨st, rfl, hsz, ?_⟩
          simp only [hsz, ne_eq, not_true_eq_false, if_false, ite_false,
            if_neg, beq_iff_eq] at hrun
          simpa [hsz] using hrun
        · rintro ⟨st2, hEq, h2, h3⟩
          cases hEq
          simp [hsz, beq_iff_eq, h3]
      | contentHash h =>
        cases hopen : ctx.fs.openFile (resolveDepPath ctx dep) with
        | err e =>
          constructor
          · intro hrun
            exfalso
            simp [hsz, hopen] at hrun
          · rintro ⟨st2, hEq, h2, buf, hb, h4⟩
            cases hEq
            simp [hopen] at hb
        | ok buf =>
          constructor
          · intro hrun
            simp only [hsz, hopen, ne_eq, not_true_eq_false, if_false,
              ite_false, if_neg, beq_iff_eq] at hrun
            refine ⟨st, rfl, hsz, buf, rfl, ?_⟩
            simpa [hsz, hopen] using hrun
          · rintro ⟨st2, hEq, h2, buf2, hb, h4⟩
            cases hEq
            cases hb
            simp [hsz, hopen, beq_iff_eq, h4]
    · constructor
      · intro hrun
        exfalso
        cases hver : dep.verifier with
        | modTime t => simp [hver, hsz] at hrun
        | contentHash h => simp [hver, hsz] at hrun
      · rintro ⟨st2, hEq, h2, h3⟩
        cases hEq
        exact absurd h2 hsz

theorem adjacentProbeResult_failed (ctx : LoaderCtx) (modulePath : String) :
    adjacentProbeResult ctx modulePath =
      .failed (adjacentOutcome ctx modulePath) := by
  unfold adjacentProbeResult adjacentOutcome
  cases ctx.fs.openFile modulePath with
  | ok buf =>
    by_cases h : serializedASTBufferIsUpToDate ctx buf = true <;> simp [h]
  | err e =>
    by_cases h : e = OpenErr.notFound <;> simp [h]

theorem discover_eq_discoverSpec (ctx : LoaderCtx)
    (modulePath cachedOutputPath : String) (mode : LoadingMode) :
    discover ctx modulePath cachedOutputPath mode =
      discoverSpec ctx modulePath cachedOutputPath mode := by
  cases mode <;> rfl

/-! ## Claim C1 -/

/-- C1.  For every filesystem state and every load mode (other than the
`OnlySerialized` mode the source declares unreachable), discovery equals
the ordered composition `discoverSpec` of the probes: user cache first,
then prebuilt cache, then the adjacent-binary defer; `OnlyParseable`
(OnlyInterface) returns NotFound immediately, `PreferParseable`
(PreferInterface) composes only the two cache probes and never reaches
the adjacent binary, and a probe whose freshness check fails contributes
`none`, falling through to the next probe instead of erroring. -/
theorem claim_C1_discovery_precedence (ctx : LoaderCtx)
    (modulePath cachedOutputPath : String) (mode : LoadingMode)
    (hmode : mode ≠ LoadingMode.onlySerialized) :
    discover ctx modulePath cachedOutputPath mode =
      discoverSpec ctx modulePath cachedOutputPath mode := by
  cases mode with
  | onlySerialized => exact absurd rfl hmode
  | onlyParseable => rfl
  | preferParseable => rfl
  | preferSerialized => rfl

/-- Witness for C1 at a concrete filesystem and mode. -/
theorem claim_C1_witness :
    discover ctxStaleAdjacent "/M.swiftmodule" "/C.swiftmodule"
        LoadingMode.preferSerialized =
      discoverSpec ctxStaleAdjacent "/M.swiftmodule" "/C.swiftmodule"
        LoadingMode.preferSerialized :=
  claim_C1_discovery_precedence ctxStaleAdjacent "/M.swiftmodule"
    "/C.swiftmodule" LoadingMode.preferSerialized (by decide)

/-! ## Claim C2 -/

/-- C2.  `dependenciesAreUpToDate` returns true if and only if every
dependency record passes the freshness condition: stat of the resolved
path (SDK root prepended for SDK-relative records) succeeds with the
recorded size, the 64-bit mtime matches exactly for mtime records, and
the xxHash64 of the readable file contents matches for hash records; any
stat failure, size, mtime or hash difference, or unreadable file yields
false. -/
theorem claim_C2_freshness_totality (ctx : LoaderCtx)
    (deps : List FileDependency) :
    dependenciesAreUpToDate ctx deps = true ↔
      ∀ dep ∈ deps, depUpToDateSpec ctx dep := by
  unfold dependenciesAreUpToDate
  simp only [List.all_eq_true]
  constructor
  · intro h dep hmem
    exact (dependencyIsUpToDate_iff ctx dep).mp (h dep hmem)
  · intro h dep hmem
    exact (dependencyIsUpToDate_iff ctx dep).mpr (h dep hmem)

/-- Witness for C2: a concrete dependency list over a concrete
filesystem, passed through the theorem. -/
theorem claim_C2_witness :
    depUpToDateSpec ctxPrebuilt
      { path := "/d", sdkRelative := false, size := 1,
        verifier := .modTime 2 } :=
  (claim_C2_freshness_totality ctxPrebuilt
      [{ path := "/d", sdkRelative := false, size := 1,
         verifier := .modTime 2 }]).mp (by decide)
    { path := "/d", sdkRelative := false, size := 1,
      verifier := .modTime 2 } (by simp)

/-! ## Claim C3 -/

/-- C3 counterexample.  The claim states a sibling that exists but is
stale yields `AlreadyHandledElsewhere`, never NotFound.  On the concrete
state `ctxStaleAdjacent`, the adjacent module `/M.swiftmodule` opens
successfully, its freshness check fails (recorded size 99 vs size 5 on
disk), and discovery in PreferBinary mode with both caches missing
returns NotFound, not NotSupported. -/
theorem claim_C3_counterexample :
    fsStaleAdjacent.openFile "/M.swiftmodule" = .ok bufStale ∧
    serializedASTBufferIsUpToDate ctxStaleAdjacent bufStale = false ∧
    discover ctxStaleAdjacent "/M.swiftmodule" "/C.swiftmodule"
        LoadingMode.preferSerialized = .failed .notFound := by
  refine ⟨by decide, by decide, by decide⟩

/-- C3 as amended.  In PreferBinary mode, once both cache probes miss,
discovery returns exactly the adjacent verdict: NotSupported
(AlreadyHandledElsewhere) when the sibling exists and is up to date, and
also when opening the sibling fails with any error other than not-found;
but a sibling that opens and is merely stale or invalid falls through to
NotFound, as does an absent sibling. -/
theorem claim_C3_adjacent_defer (ctx : LoaderCtx)
    (modulePath cachedOutputPath : String)
    (hcache : userCacheProbe ctx cachedOutputPath = none)
    (hpre : prebuiltProbe ctx modulePath = none) :
    discover ctx modulePath cachedOutputPath
        LoadingMode.preferSerialized =
      .failed (adjacentOutcome ctx modulePath) := by
  rw [discover_eq_discoverSpec]
  unfold discoverSpec
  rw [hcache, hpre, ← adjacentProbeResult_failed]

/-- Witness for the amended C3 on the stale-adjacent state. -/
theorem claim_C3_witness :
    discover ctxStaleAdjacent "/M.swiftmodule" "/C.swiftmodule"
        LoadingMode.preferSerialized =
      .failed (adjacentOutcome ctxStaleAdjacent "/M.swiftmodule") :=
  claim_C3_adjacent_defer ctxStaleAdjacent "/M.swiftmodule"
    "/C.swiftmodule" (by decide) (by decide)

/-! ## Claim C4 -/

theorem hashMix_lt (a b : Nat) : hashMix a b < w64 :=
  Nat.mod_lt _ (by norm_num [w64])

/-- C4.  The cache key is a pure function of exactly the compiler build
identity, the interface path, the target architecture, the SDK path and
the system-dependency-tracking flag, rendered in base 36 from a value
below 2^64: two invocations agreeing on those five inputs — in
particular ones differing only in interface contents or in the source
language version — receive identical keys, and a difference in any one
of the five listed inputs can change the key. -/
theorem claim_C4_cache_key_stability :
    (∀ inv inv2 : SubInvocation,
        inv.fullVersion = inv2.fullVersion →
        inv.interfacePath = inv2.interfacePath →
        inv.targetArch = inv2.targetArch →
        inv.sdkPath = inv2.sdkPath →
        inv.trackSystemDeps = inv2.trackSystemDeps →
        getCacheHash inv = getCacheHash inv2) ∧
    (∀ inv : SubInvocation, ∃ n, n < w64 ∧ getCacheHash inv = toBase36 n) ∧
    getCacheHash invBase ≠ getCacheHash invVer ∧
    getCacheHash invBase ≠ getCacheHash invPath ∧
    getCacheHash invBase ≠ getCacheHash invArch ∧
    getCacheHash invBase ≠ getCacheHash invSdk ∧
    getCacheHash invBase ≠ getCacheHash invTrack := by
  refine ⟨?_, ?_, by decide, by decide, by decide, by decide, by decide⟩
  · intro inv inv2 h1 h2 h3 h4 h5
    unfold getCacheHash
    rw [h1, h2, h3, h4, h5]
  · intro inv
    exact ⟨_, hashMix_lt _ _, rfl⟩

/-- Witness for C4: two invocations differing only in interface contents
and language version receive the same key. -/
theorem claim_C4_witness :
    getCacheHash invBase = getCacheHash invContent :=
  claim_C4_cache_key_stability.1 invBase invContent rfl rfl rfl rfl rfl

/-! ## Claim C7 -/

/-- C7.  The prebuilt candidate exists exactly when the SDK path is
nonempty and is a component-wise prefix of the interface path; when it
exists it equals `prebuilt_dir / [<parent-dir-name>/]
<basename-of-module-path>` with the optional segment included iff the
parent directory name has the `.swiftmodule` extension (and no cache key
enters the composition); and a prebuilt-probe hit therefore implies the
SDK-prefix gate held. -/
theorem claim_C7_prebuilt_candidate (ctx : LoaderCtx)
    (modulePath : String) :
    ((computePrebuiltModulePath ctx modulePath).isSome ↔
      (ctx.sdkPath ≠ "" ∧
        (pathComponents ctx.sdkPath).isPrefixOf
          (pathComponents ctx.interfacePath) = true)) ∧
    (∀ s, computePrebuiltModulePath ctx modulePath = some s →
      s = prebuiltCandidateSpec ctx modulePath) ∧
    (∀ m, prebuiltProbe ctx modulePath = some m →
      ctx.sdkPath ≠ "" ∧
        (pathComponents ctx.sdkPath).isPrefixOf
          (pathComponents ctx.interfacePath) = true) := by
  by_cases h : ctx.sdkPath = "" ∨
      ¬ ((pathComponents ctx.sdkPath).isPrefixOf
          (pathComponents ctx.interfacePath) = true)
  · have hnone : computePrebuiltModulePath ctx modulePath = none := by
      unfold computePrebuiltModulePath
      rw [if_pos h]
    refine ⟨?_, ?_, ?_⟩
    · rw [hnone]
      simp only [Option.isSome_none, Bool.false_eq_true, false_iff]
      tauto
    · intro s hs
      rw [hnone] at hs
      cases hs
    · intro m hm
      unfold prebuiltProbe at hm
      rw [hnone] at hm
      by_cases hpb : ctx.prebuiltCacheDir ≠ "" <;> simp [hpb] at hm
  · push_neg at h
    have hcond : ¬ (ctx.sdkPath = "" ∨
        ¬ ((pathComponents ctx.sdkPath).isPrefixOf
            (pathComponents ctx.interfacePath) = true)) := by
      push_neg
      exact h
    have hsome : computePrebuiltModulePath ctx modulePath =
        some (prebuiltCandidateSpec ctx modulePath) := by
      unfold computePrebuiltModulePath prebuiltCandidateSpec
      rw [if_neg hcond]
    refine ⟨?_, ?_, ?_⟩
    · rw [hsome]
      simpa using h
    · intro s hs
      rw [hsome] at hs
      injection hs with hs2
      exact hs2.symm
    · intro m _
      exact h

/-- Witness for C7: with the interface inside the SDK, the candidate is
the prebuilt directory plus the module filename. -/
theorem claim_C7_witness :
    "/pb/M.swiftmodule" =
      prebuiltCandidateSpec ctxSdkInterface "/s/M.swiftmodule" :=
  (claim_C7_prebuilt_candidate ctxSdkInterface "/s/M.swiftmodule").2.1
    "/pb/M.swiftmodule" (by decide)

/-! ## Claim C10 -/

/-- C10.  Checking a forwarding module's freshness converts every
recorded dependency to an mtime-based, non-SDK-relative record, so the
check equals the stat-only specification: it consults only each
dependency's size and mtime at its literal path, never reading or
hashing dependency contents, regardless of how the underlying prebuilt
module's own embedded list is verified. -/
theorem claim_C10_forwarded_stat_only (ctx : LoaderCtx)
    (fwd : ForwardingModule) :
    forwardingModuleIsUpToDate ctx fwd = forwardingFreshSpec ctx fwd := by
  unfold forwardingModuleIsUpToDate forwardingFreshSpec
  cases hopen : ctx.fs.openFile fwd.underlyingModulePath with
  | err e => rfl
  | ok modBuf =>
    have hpt : ∀ d : FwdDependency,
        dependencyIsUpToDate ctx
          { path := d.path, sdkRelative := false, size := d.size,
            verifier := .modTime d.lastModificationTime }
          (resolveDepPath ctx
            { path := d.path, sdkRelative := false, size := d.size,
              verifier := .modTime d.lastModificationTime }) =
        (match ctx.fs.stat d.path with
         | none => false
         | some st =>
           st.size == d.size && st.mtime == d.lastModificationTime) := by
      intro d
      have hres : resolveDepPath ctx
          { path := d.path, sdkRelative := false, size := d.size,
            verifier := .modTime d.lastModificationTime } = d.path := rfl
      rw [hres]
      unfold dependencyIsUpToDate
      cases hstat : ctx.fs.stat d.path with
      | none => rfl
      | some st =>
        by_cases hs : st.size = d.size <;> simp [hs]
    have hdeps : dependenciesAreUpToDate ctx
        (fwd.dependencies.map fun d =>
          { path := d.path, sdkRelative := false, size := d.size,
            verifier := .modTime d.lastModificationTime }) =
        fwd.dependencies.all (fun d =>
          match ctx.fs.stat d.path with
          | none => false
          | some st =>
            st.size == d.size && st.mtime == d.lastModificationTime) := by
      unfold dependenciesAreUpToDate
      induction fwd.dependencies with
      | nil => rfl
      | cons d ds ih =>
        simp only [List.map_cons, List.all_cons, ih]
        congr 1
        exact hpt d
    rw [hdeps]
    by_cases h1 : modBuf.validAST.isSome = true <;>
      by_cases h2 : fwd.dependencies.all (fun d =>
          match ctx.fs.stat d.path with
          | none => false
          | some st =>
            st.size == d.size && st.mtime == d.lastModificationTime) = true <;>
      simp [h1, h2]

/-! ## Claim C6 -/

theorem parse_serialize_dep (d : FwdDependency) :
    parseFwdDep (serializeFwdDep d) = some d := rfl

theorem parse_serialize_deps (ds : List FwdDependency) :
    parseFwdDeps (ds.map serializeFwdDep) = some ds := by
  induction ds with
  | nil => rfl
  | cons d rest ih =>
    simp only [List.map_cons, parseFwdDeps, parse_serialize_dep, ih]

theorem parse_serialize_doc (fwd : ForwardingModule) :
    parseFwdDoc (serializeFwd fwd) = some fwd := by
  have h : parseFwdDoc (serializeFwd fwd) =
      (parseFwdDeps (fwd.dependencies.map serializeFwdDep)).map
        (fun ds =>
          { underlyingModulePath := fwd.underlyingModulePath,
            dependencies := ds, version := fwd.version }) := rfl
  rw [h, parse_serialize_deps]
  rfl

/-- C6.  Serializing any forwarding-module record through the YAML
mapping and re-parsing yields the record back, and `ForwardingModule::
load` accepts the result exactly when the version field is 1: any other
version is rejected as not supported. -/
theorem claim_C6_forwarding_round_trip (fwd : ForwardingModule) :
    (fwd.version = 1 → forwardingLoad (serializeFwd fwd) = .ok fwd) ∧
    (fwd.version ≠ 1 →
      forwardingLoad (serializeFwd fwd) = .err .notSupported) := by
  constructor <;> intro hv <;> unfold forwardingLoad <;>
    rw [parse_serialize_doc] <;> simp [hv]

/-- Witness for C6: a version-1 record round-trips, a version-2 record
is rejected. -/
theorem claim_C6_witness :
    forwardingLoad (serializeFwd fwdV1) = .ok fwdV1 ∧
    forwardingLoad (serializeFwd fwdV2) = .err .notSupported :=
  ⟨(claim_C6_forwarding_round_trip fwdV1).1 rfl,
   (claim_C6_forwarding_round_trip fwdV2).2 (by decide)⟩

/-! ## Claims C8 and C9 -/

theorem statDeps_isSome (ctx : LoaderCtx) (ps : List String) :
    (statDeps ctx ps).isSome = true ↔
      ∀ p ∈ ps, (ctx.fs.stat p).isSome = true := by
  induction ps with
  | nil => simp [statDeps]
  | cons p rest ih =>
    unfold statDeps
    cases hstat : ctx.fs.stat p with
    | none => simp [hstat]
    | some st => simp [hstat, Option.isSome_map, ih]

theorem statDeps_forall2 (ctx : LoaderCtx) :
    ∀ (ps : List String) (l : List FwdDependency),
      statDeps ctx ps = some l →
      List.Forall₂ (statRecordOf ctx) ps l := by
  intro ps
  induction ps with
  | nil =>
    intro l h
    unfold statDeps at h
    injection h with h2
    rw [← h2]
    exact List.Forall₂.nil
  | cons p rest ih =>
    intro l h
    unfold statDeps at h
    cases hstat : ctx.fs.stat p with
    | none => rw [hstat] at h; cases h
    | some st =>
      rw [hstat] at h
      cases hrec : statDeps ctx rest with
      | none => rw [hrec] at h; cases h
      | some l2 =>
        rw [hrec] at h
        injection h with h2
        rw [← h2]
        exact List.Forall₂.cons ⟨st, hstat, rfl⟩ (ih l2 hrec)

/-- C8.  The forwarding writer dereferences every stat without checking
it, so it is well-defined exactly when the underlying module path and
every resolved dependency path can be stat-ed; under that precondition
the dependency list it writes records, for each of those paths in order,
the file's current size and mtime. -/
theorem claim_C8_write_forwarding_defined (ctx : LoaderCtx)
    (modPath : String) (deps : List FileDependency) :
    ((writeForwardingModule ctx modPath deps).isSome = true ↔
      ∀ p ∈ modPath :: deps.map (resolveDepPath ctx),
        (ctx.fs.stat p).isSome = true) ∧
    (∀ fwd, writeForwardingModule ctx modPath deps = some fwd →
      List.Forall₂ (statRecordOf ctx)
        (modPath :: deps.map (resolveDepPath ctx)) fwd.dependencies) := by
  constructor
  · have hmap : (writeForwardingModule ctx modPath deps).isSome =
        (statDeps ctx (modPath :: deps.map (resolveDepPath ctx))).isSome := by
      unfold writeForwardingModule
      cases statDeps ctx (modPath :: deps.map (resolveDepPath ctx)) <;> rfl
    rw [hmap]
    exact statDeps_isSome ctx _
  · intro fwd h
    unfold writeForwardingModule at h
    cases hsd : statDeps ctx (modPath :: deps.map (resolveDepPath ctx)) with
    | none => rw [hsd] at h; cases h
    | some l =>
      rw [hsd] at h
      injection h with h2
      rw [← h2]
      exact statDeps_forall2 ctx _ l hsd

/-- Witness for C8 on the concrete prebuilt-module state. -/
theorem claim_C8_witness :
    List.Forall₂ (statRecordOf ctxPrebuilt)
      ("/pb/M.swiftmodule" ::
        depsPrebuilt.map (resolveDepPath ctxPrebuilt))
      fwdPrebuilt.dependencies :=
  (claim_C8_write_forwarding_defined ctxPrebuilt "/pb/M.swiftmodule"
      depsPrebuilt).2 fwdPrebuilt (by decide)

/-- C9.  Every forwarding module the writer produces names the
underlying prebuilt module as its underlying path and lists that very
path as the first dependency entry, carrying the prebuilt file's current
size and mtime; consequently any later forwarding freshness check that
succeeds has both validated the prebuilt file as a serialized AST and
re-checked its size and mtime against the recorded values. -/
theorem claim_C9_forwarding_self_dependency (ctx : LoaderCtx)
    (modPath : String) (deps : List FileDependency)
    (fwd : ForwardingModule)
    (hw : writeForwardingModule ctx modPath deps = some fwd) :
    fwd.underlyingModulePath = modPath ∧
    (∃ st, ctx.fs.stat modPath = some st ∧
      fwd.dependencies.head? = some
        { path := modPath, size := st.size,
          lastModificationTime := st.mtime }) ∧
    (∀ (ctx2 : LoaderCtx) (buf2 : Buffer),
      forwardingModuleIsUpToDate ctx2 fwd = some buf2 →
      (∃ buf, ctx2.fs.openFile modPath = .ok buf ∧
        buf.validAST.isSome = true) ∧
      (∃ st st2, ctx.fs.stat modPath = some st ∧
        ctx2.fs.stat modPath = some st2 ∧
        st2.size = st.size ∧ st2.mtime = st.mtime)) := by
  unfold writeForwardingModule at hw
  cases hsd : statDeps ctx (modPath :: deps.map (resolveDepPath ctx)) with
  | none => rw [hsd] at hw; cases hw
  | some l =>
    rw [hsd] at hw
    injection hw with hw2
    have hw3 : fwd = ForwardingModule.mk modPath l 1 := hw2.symm
    subst hw3
    unfold statDeps at hsd
    cases hstat : ctx.fs.stat modPath with
    | none => rw [hstat] at hsd; cases hsd
    | some st =>
      rw [hstat] at hsd
      cases hrec : statDeps ctx (deps.map (resolveDepPath ctx)) with
      | none => rw [hrec] at hsd; cases hsd
      | some l2 =>
        rw [hrec] at hsd
        injection hsd with hsd2
        have hsd3 : l = FwdDependency.mk modPath st.size st.mtime :: l2 :=
          hsd2.symm
        subst hsd3
        refine ⟨rfl, ⟨st, rfl, rfl⟩, ?_⟩
        intro ctx2 buf2 hup
        have hup2 : (match ctx2.fs.openFile modPath with
            | OpenResult.err _ => none
            | OpenResult.ok modBuf =>
              if modBuf.validAST.isSome = true then
                if dependenciesAreUpToDate ctx2
                    ((FwdDependency.mk modPath st.size st.mtime :: l2).map
                      fun d =>
                        { path := d.path, sdkRelative := false,
                          size := d.size,
                          verifier := DepVerifier.modTime
                            d.lastModificationTime }) = true then
                  some modBuf
                else none
              else none) = some buf2 := hup
        cases hopen : ctx2.fs.openFile modPath with
        | err e => rw [hopen] at hup2; cases hup2
        | ok buf =>
          rw [hopen] at hup2
          have hup3 : (if buf.validAST.isSome = true then
              (if dependenciesAreUpToDate ctx2
                  ((FwdDependency.mk modPath st.size st.mtime :: l2).map
                    fun d =>
                      { path := d.path, sdkRelative := false,
                        size := d.size,
                        verifier := DepVerifier.modTime
                          d.lastModificationTime }) = true then
                some buf
              else none)
              else none) = some buf2 := hup2
          by_cases hval : buf.validAST.isSome = true
          · rw [if_pos hval] at hup3
            refine ⟨⟨buf, rfl, hval⟩, ?_⟩
            by_cases hfresh : dependenciesAreUpToDate ctx2
                ((FwdDependency.mk modPath st.size st.mtime :: l2).map
                  fun d =>
                    { path := d.path, sdkRelative := false, size := d.size,
                      verifier := DepVerifier.modTime
                        d.lastModificationTime }) = true
            · have hhead : dependencyIsUpToDate ctx2
                  { path := modPath, sdkRelative := false, size := st.size,
                    verifier := DepVerifier.modTime st.mtime }
                  (resolveDepPath ctx2
                    { path := modPath, sdkRelative := false,
                      size := st.size,
                      verifier := DepVerifier.modTime st.mtime })
                    = true := by
                unfold dependenciesAreUpToDate at hfresh
                rw [List.map_cons, List.all_cons] at hfresh
                exact ((Bool.and_eq_true _ _).mp hfresh).1
              have hres : resolveDepPath ctx2
                  { path := modPath, sdkRelative := false, size := st.size,
                    verifier := DepVerifier.modTime st.mtime } =
                  modPath := rfl
              rw [hres] at hhead
              unfold dependencyIsUpToDate at hhead
              cases hstat2 : ctx2.fs.stat modPath with
              | none => rw [hstat2] at hhead; cases hhead
              | some st2 =>
                rw [hstat2] at hhead
                have hhead2 : (if st2.size ≠ st.size then false
                    else (st2.mtime == st.mtime)) = true := hhead
                by_cases hs : st2.size = st.size
                · rw [if_neg (not_not_intro hs)] at hhead2
                  exact ⟨st, st2, rfl, rfl, hs, by simpa using hhead2⟩
                · rw [if_pos hs] at hhead2
                  cases hhead2
            · rw [if_neg hfresh] at hup3
              cases hup3
          · rw [if_neg hval] at hup3
            cases hup3

/-! ## Claim C5 -/

theorem mem_flattenStep_seen (acc : CollectState) (sd : FileDependency)
    (x : String) (h : x ∈ acc.seen) : x ∈ (flattenStep acc sd).seen := by
  unfold flattenStep
  by_cases hp : sd.path ∈ acc.seen
  · rw [if_pos hp]; exact h
  · rw [if_neg hp]; exact List.mem_append_left _ h

theorem mem_foldFlatten_seen (subs : List FileDependency) :
    ∀ (acc : CollectState) (x : String), x ∈ acc.seen →
      x ∈ (subs.foldl flattenStep acc).seen := by
  induction subs with
  | nil => intro acc x h; exact h
  | cons s rest ih =>
    intro acc x h
    exact ih (flattenStep acc s) x (mem_flattenStep_seen acc s x h)

theorem foldFlatten_covers (subs : List FileDependency) :
    ∀ (acc : CollectState), ∀ sd ∈ subs,
      sd.path ∈ (subs.foldl flattenStep acc).seen := by
  induction subs with
  | nil => intro acc sd h; cases h
  | cons s rest ih =>
    intro acc sd hmem
    rcases List.mem_cons.mp hmem with h | h
    · subst h
      rw [List.foldl_cons]
      apply mem_foldFlatten_seen
      unfold flattenStep
      by_cases hp : sd.path ∈ acc.seen
      · rw [if_pos hp]; exact hp
      · rw [if_neg hp]
        exact List.mem_append_right _ (List.mem_singleton.mpr rfl)
    · rw [List.foldl_cons]
      exact ih (flattenStep acc s) sd h

theorem foldFlatten_noop (subs : List FileDependency) :
    ∀ (acc : CollectState), (∀ sd ∈ subs, sd.path ∈ acc.seen) →
      subs.foldl flattenStep acc = acc := by
  induction subs with
  | nil => intro acc _; rfl
  | cons s rest ih =>
    intro acc h
    have hstep : flattenStep acc s = acc := by
      unfold flattenStep
      rw [if_pos (h s (List.mem_cons_self s rest))]
    rw [List.foldl_cons, hstep]
    exact ih acc (fun sd hm => h sd (List.mem_cons_of_mem s hm))

theorem foldFlatten_deps (subs : List FileDependency) :
    ∀ (acc : CollectState) (d : FileDependency),
      d ∈ (subs.foldl flattenStep acc).deps →
      d ∈ acc.deps ∨ d ∈ subs := by
  induction subs with
  | nil => intro acc d h; exact Or.inl h
  | cons s rest ih =>
    intro acc d h
    rcases ih (flattenStep acc s) d h with h2 | h2
    · unfold flattenStep at h2
      by_cases hp : s.path ∈ acc.seen
      · rw [if_pos hp] at h2
        exact Or.inl h2
      · rw [if_neg hp] at h2
        rcases List.mem_append.mp h2 with h3 | h3
        · exact Or.inl h3
        · exact Or.inr (List.mem_cons.mpr
            (Or.inl (List.mem_singleton.mp h3)))
    · exact Or.inr (List.mem_cons_of_mem s h2)

theorem isCachedModule_of_ext (ctx : BuildCtx) (s : String)
    (h : pathExtension s ≠ ".swiftmodule") :
    isCachedModule ctx s = false := by
  unfold isCachedModule
  by_cases h0 : ctx.moduleCachePath = "" ∧ ctx.prebuiltCachePath = ""
  · rw [if_pos h0]
  · rw [if_neg h0]
    apply decide_eq_false
    rintro ⟨hext, -⟩
    exact h hext

theorem cons_isPrefixOf (a b : Char) (as bs : List Char) :
    (a :: as).isPrefixOf (b :: bs) = (a == b && as.isPrefixOf bs) := rfl

theorem startsWithSlash_data (s : String)
    (h : strStartsWith s "/" = true) : ∃ t, s.data = '/' :: t := by
  unfold strStartsWith at h
  rcases List.isPrefixOf_iff_prefix.mp h with ⟨t, ht⟩
  exact ⟨t, ht.symm⟩

theorem headNotSlash_not_cached (ctx : BuildCtx) (c : Char)
    (cs : List Char) (habs : cacheDirsAbsolute ctx) (hc : c ≠ '/') :
    isCachedModule ctx (String.mk (c :: cs)) = false := by
  unfold isCachedModule
  by_cases h0 : ctx.moduleCachePath = "" ∧ ctx.prebuiltCachePath = ""
  · rw [if_pos h0]
  · rw [if_neg h0]
    apply decide_eq_false
    rintro ⟨-, ⟨hne, hpre⟩ | ⟨hne, hpre⟩⟩
    · rcases habs.1 with h | h
      · exact hne h
      · rcases startsWithSlash_data _ h with ⟨t, ht⟩
        unfold strStartsWith at hpre
        rw [ht] at hpre
        rw [show (String.mk (c :: cs)).data = c :: cs from rfl] at hpre
        rw [cons_isPrefixOf] at hpre
        rcases (Bool.and_eq_true _ _).mp hpre with ⟨hb, -⟩
        exact hc (beq_iff_eq.mp hb).symm
    · rcases habs.2 with h | h
      · exact hne h
      · rcases startsWithSlash_data _ h with ⟨t, ht⟩
        unfold strStartsWith at hpre
        rw [ht] at hpre
        rw [show (String.mk (c :: cs)).data = c :: cs from rfl] at hpre
        rw [cons_isPrefixOf] at hpre
        rcases (Bool.and_eq_true _ _).mp hpre with ⟨hb, -⟩
        exact hc (beq_iff_eq.mp hb).symm

theorem noAdj_ss : ∀ (l1 l2 : List Char),
    noAdjacentSlashes (l1 ++ '/' :: '/' :: l2) = false := by
  intro l1
  induction l1 with
  | nil => intro l2; simp [noAdjacentSlashes]
  | cons c rest ih =>
    intro l2
    cases rest with
    | nil =>
      have h := ih l2
      simp only [List.nil_append] at h
      simp [noAdjacentSlashes, h]
    | cons c2 rest2 =>
      have h := ih l2
      simp only [List.cons_append] at h ⊢
      rw [noAdjacentSlashes]
      simp [h]

theorem rewrite_store_not_cached (ctx : BuildCtx) (depName store : String)
    (rel : Bool) (habs : cacheDirsAbsolute ctx)
    (hn : noAdjacentSlashes depName.data = true)
    (hr : rewriteSDKRelative ctx.sdkPath depName = some (store, rel))
    (hnc : isCachedModule ctx depName = false) :
    isCachedModule ctx store = false := by
  unfold rewriteSDKRelative at hr
  by_cases hcond : ctx.sdkPath.data.length > 1 ∧
      strStartsWith depName ctx.sdkPath = true
  · rw [if_pos hcond] at hr
    have hpre : ctx.sdkPath.data.isPrefixOf depName.data = true := hcond.2
    rcases List.isPrefixOf_iff_prefix.mp hpre with ⟨t, ht⟩
    have hdrop : depName.data.drop ctx.sdkPath.data.length = t := by
      rw [← ht]
      exact List.drop_left _ _
    rw [hdrop] at hr
    cases t with
    | nil => cases hr
    | cons c cs =>
      have hr2 : (if c = '/' then some (String.mk cs, true)
          else if strEndsWith ctx.sdkPath "/" = true then
            some (String.mk (c :: cs), true)
          else some (depName, false)) = some (store, rel) := hr
      by_cases hslash : c = '/'
      · rw [if_pos hslash] at hr2
        injection hr2 with hr3
        injection hr3.symm with h1 h2
        cases cs with
        | nil =>
          rw [h1]
          exact isCachedModule_of_ext ctx (String.mk []) (by decide)
        | cons c2 cs2 =>
          have hc2 : c2 ≠ '/' := by
            intro hq
            rw [hq, hslash] at ht
            rw [← ht] at hn
            rw [noAdj_ss] at hn
            cases hn
          rw [h1]
          exact headNotSlash_not_cached ctx c2 cs2 habs hc2
      · rw [if_neg hslash] at hr2
        by_cases hend : strEndsWith ctx.sdkPath "/" = true
        · rw [if_pos hend] at hr2
          injection hr2 with hr3
          injection hr3.symm with h1 h2
          rw [h1]
          exact headNotSlash_not_cached ctx c cs habs hslash
        · rw [if_neg hend] at hr2
          injection hr2 with hr3
          injection hr3.symm with h1 h2
          rw [h1]
          exact hnc
  · rw [if_neg hcond] at hr
    injection hr with hr2
    injection hr2.symm with h1 h2
    rw [h1]
    exact hnc

/-- The insert step leaves the record list unchanged. -/
theorem insertName_deps (st : CollectState) (depName : String)
    (rel : Bool) : (insertName st depName rel).deps = st.deps := by
  unfold insertName
  by_cases h : depName ∉ st.seen
  · rw [if_pos h]
  · rw [if_neg h]

theorem mem_insertName_seen (st : CollectState) (depName : String)
    (rel : Bool) (x : String) (h : x ∈ st.seen) :
    x ∈ (insertName st depName rel).seen := by
  unfold insertName
  by_cases hm : depName ∉ st.seen
  · rw [if_pos hm]
    exact List.mem_append_left _ h
  · rw [if_neg hm]
    exact h

theorem self_mem_insertName_seen (st : CollectState) (depName : String)
    (rel : Bool) : depName ∈ (insertName st depName rel).seen := by
  unfold insertName
  by_cases hm : depName ∉ st.seen
  · rw [if_pos hm]
    exact List.mem_append_right _ (List.mem_singleton.mpr rfl)
  · rw [if_neg hm]
    exact not_not.mp hm

theorem insertName_noop (st : CollectState) (depName : String)
    (rel : Bool) (h : depName ∈ st.seen) :
    insertName st depName rel = st := by
  unfold insertName
  rw [if_neg (not_not_intro h)]

/-- The shape of `collectOne` once the SDK rewrite has produced a stored path: the
remaining branch structure with the pair match reduced away. -/
theorem collectOne_some_eq (ctx : BuildCtx) (hb : Bool)
    (st : CollectState) (depName store : String) (rel : Bool)
    (hr : rewriteSDKRelative ctx.sdkPath depName = some (store, rel)) :
    collectOne ctx hb st depName =
      if isCachedModule ctx depName = true then
        match ctx.fs.openFile depName with
        | .err _ => none
        | .ok buf =>
          match buf.validAST with
          | none => none
          | some subDeps =>
            some (subDeps.foldl flattenStep (insertName st depName rel))
      else
        match ctx.fs.stat depName with
        | none => none
        | some status =>
          if hb = true then
            match ctx.fs.openFile depName with
            | .err _ => none
            | .ok buf =>
              some { insertName st depName rel with
                     deps := (insertName st depName rel).deps ++
                       [{ path := store, sdkRelative := rel,
                          size := status.size,
                          verifier := .contentHash buf.hash }] }
          else
            some { insertName st depName rel with
                   deps := (insertName st depName rel).deps ++
                     [{ path := store, sdkRelative := rel,
                        size := status.size,
                        verifier := .modTime status.mtime }] } := by
  unfold collectOne
  rw [hr]

/-- The cached-module branch of `collectOne` once the module buffer is
known. -/
theorem collectOne_cached_eq (ctx : BuildCtx) (hb : Bool)
    (st : CollectState) (depName store : String) (rel : Bool)
    (buf : Buffer)
    (hr : rewriteSDKRelative ctx.sdkPath depName = some (store, rel))
    (hc : isCachedModule ctx depName = true)
    (hopen : ctx.fs.openFile depName = .ok buf) :
    collectOne ctx hb st depName =
      match buf.validAST with
      | none => none
      | some subDeps =>
        some (subDeps.foldl flattenStep (insertName st depName rel)) := by
  rw [collectOne_some_eq ctx hb st depName store rel hr, if_pos hc, hopen]

/-- The direct-record branch of `collectOne` once the stat is known. -/
theorem collectOne_direct_eq (ctx : BuildCtx) (hb : Bool)
    (st : CollectState) (depName store : String) (rel : Bool)
    (status : FileStat)
    (hr : rewriteSDKRelative ctx.sdkPath depName = some (store, rel))
    (hc : ¬ isCachedModule ctx depName = true)
    (hstat : ctx.fs.stat depName = some status) :
    collectOne ctx hb st depName =
      if hb = true then
        match ctx.fs.openFile depName with
        | .err _ => none
        | .ok buf =>
          some { insertName st depName rel with
                 deps := (insertName st depName rel).deps ++
                   [{ path := store, sdkRelative := rel,
                      size := status.size,
                      verifier := .contentHash buf.hash }] }
      else
        some { insertName st depName rel with
               deps := (insertName st depName rel).deps ++
                 [{ path := store, sdkRelative := rel,
                    size := status.size,
                    verifier := .modTime status.mtime }] } := by
  rw [collectOne_some_eq ctx hb st depName store rel hr, if_neg hc, hstat]

theorem collectOne_deps_not_cached (ctx : BuildCtx) (hb : Bool)
    (st st2 : CollectState) (depName : String)
    (habs : cacheDirsAbsolute ctx)
    (hflat : embeddedListsFlattened ctx)
    (hn : noAdjacentSlashes depName.data = true)
    (hrun : collectOne ctx hb st depName = some st2)
    (hprev : ∀ d ∈ st.deps, isCachedModule ctx d.path = false) :
    ∀ d ∈ st2.deps, isCachedModule ctx d.path = false := by
  cases hr : rewriteSDKRelative ctx.sdkPath depName with
  | none =>
    unfold collectOne at hrun
    rw [hr] at hrun
    cases hrun
  | some pr =>
    obtain ⟨store, rel⟩ := pr
    by_cases hc : isCachedModule ctx depName = true
    · cases hopen : ctx.fs.openFile depName with
      | err e =>
        rw [collectOne_some_eq ctx hb st depName store rel hr,
          if_pos hc, hopen] at hrun
        cases hrun
      | ok buf =>
        rw [collectOne_cached_eq ctx hb st depName store rel buf
          hr hc hopen] at hrun
        cases hval : buf.validAST with
        | none => rw [hval] at hrun; cases hrun
        | some subDeps =>
          rw [hval] at hrun
          injection hrun with hrun2
          intro d hd
          rw [← hrun2] at hd
          rcases foldFlatten_deps subDeps _ d hd with h2 | h2
          · rw [insertName_deps] at h2
            exact hprev d h2
          · exact hflat depName hc buf hopen subDeps hval d h2
    · have hcf : isCachedModule ctx depName = false := by
        revert hc
        cases isCachedModule ctx depName <;> simp
      cases hstat : ctx.fs.stat depName with
      | none =>
        rw [collectOne_some_eq ctx hb st depName store rel hr,
          if_neg hc, hstat] at hrun
        cases hrun
      | some status =>
        rw [collectOne_direct_eq ctx hb st depName store rel status
          hr hc hstat] at hrun
        cases hb with
        | true =>
          cases hopen : ctx.fs.openFile depName with
          | err e => rw [hopen] at hrun; cases hrun
          | ok buf =>
            rw [hopen] at hrun
            injection hrun with hrun2
            intro d hd
            rw [← hrun2] at hd
            have hd2 : d ∈ (insertName st depName rel).deps ++
                [{ path := store, sdkRelative := rel,
                   size := status.size,
                   verifier := DepVerifier.contentHash buf.hash }] := hd
            rw [insertName_deps] at hd2
            rcases List.mem_append.mp hd2 with h2 | h2
            · exact hprev d h2
            · rw [List.mem_singleton.mp h2]
              exact rewrite_store_not_cached ctx depName store rel
                habs hn hr hcf
        | false =>
          injection hrun with hrun2
          intro d hd
          rw [← hrun2] at hd
          have hd2 : d ∈ (insertName st depName rel).deps ++
              [{ path := store, sdkRelative := rel,
                 size := status.size,
                 verifier := DepVerifier.modTime status.mtime }] := hd
          rw [insertName_deps] at hd2
          rcases List.mem_append.mp hd2 with h2 | h2
          · exact hprev d h2
          · rw [List.mem_singleton.mp h2]
            exact rewrite_store_not_cached ctx depName store rel
              habs hn hr hcf

theorem collectAll_bind (ctx : BuildCtx) (hb : Bool) :
    ∀ (l1 l2 : List String) (st : CollectState),
      collectAll ctx hb st (l1 ++ l2) =
        Option.bind (collectAll ctx hb st l1)
          (fun s => collectAll ctx hb s l2) := by
  intro l1
  induction l1 with
  | nil => intro l2 st; rfl
  | cons d rest ih =>
    intro l2 st
    show (match collectOne ctx hb st d with
          | none => none
          | some s2 => collectAll ctx hb s2 (rest ++ l2)) =
        Option.bind (match collectOne ctx hb st d with
          | none => none
          | some s2 => collectAll ctx hb s2 rest)
          (fun s => collectAll ctx hb s l2)
    cases collectOne ctx hb st d with
    | none => rfl
    | some s2 => exact ih l2 s2

theorem collectAll_deps_not_cached (ctx : BuildCtx) (hb : Bool)
    (habs : cacheDirsAbsolute ctx) (hflat : embeddedListsFlattened ctx) :
    ∀ (names : List String) (st st2 : CollectState),
      (∀ n ∈ names, noAdjacentSlashes n.data = true) →
      (∀ d ∈ st.deps, isCachedModule ctx d.path = false) →
      collectAll ctx hb st names = some st2 →
      ∀ d ∈ st2.deps, isCachedModule ctx d.path = false := by
  intro names
  induction names with
  | nil =>
    intro st st2 _ hprev hrun
    injection hrun with h2
    rw [← h2]
    exact hprev
  | cons n rest ih =>
    intro st st2 hnames hprev hrun
    unfold collectAll at hrun
    cases hone : collectOne ctx hb st n with
    | none => rw [hone] at hrun; cases hrun
    | some s2 =>
      rw [hone] at hrun
      exact ih s2 st2
        (fun m hm => hnames m (List.mem_cons_of_mem n hm))
        (collectOne_deps_not_cached ctx hb st s2 n habs hflat
          (hnames n (List.mem_cons_self n rest)) hone hprev)
        hrun

theorem collectOne_cached_repeat (ctx : BuildCtx) (hb : Bool)
    (st st2 : CollectState) (depName : String)
    (hc : isCachedModule ctx depName = true)
    (hrun : collectOne ctx hb st depName = some st2) :
    collectOne ctx hb st2 depName = some st2 := by
  cases hr : rewriteSDKRelative ctx.sdkPath depName with
  | none =>
    unfold collectOne at hrun
    rw [hr] at hrun
    cases hrun
  | some pr =>
    obtain ⟨store, rel⟩ := pr
    cases hopen : ctx.fs.openFile depName with
    | err e =>
      rw [collectOne_some_eq ctx hb st depName store rel hr,
        if_pos hc, hopen] at hrun
      cases hrun
    | ok buf =>
      rw [collectOne_cached_eq ctx hb st depName store rel buf
        hr hc hopen] at hrun
      cases hval : buf.validAST with
      | none => rw [hval] at hrun; cases hrun
      | some subDeps =>
        rw [hval] at hrun
        injection hrun with hrun2
        have hdsn : depName ∈ st2.seen := by
          rw [← hrun2]
          exact mem_foldFlatten_seen subDeps _ depName
            (self_mem_insertName_seen st depName rel)
        have hsubs : ∀ sd ∈ subDeps, sd.path ∈ st2.seen := by
          intro sd hm
          rw [← hrun2]
          exact foldFlatten_covers subDeps _ sd hm
        rw [collectOne_cached_eq ctx hb st2 depName store rel buf
          hr hc hopen]
        rw [insertName_noop st2 depName rel hdsn]
        rw [hval]
        show some (subDeps.foldl flattenStep st2) = some st2
        rw [foldFlatten_noop subDeps st2 hsubs]

/-- C5 counterexample.  The claim states no emitted Dependency Record
has a cached-module path.  On `ctxNestedCached`, the raw dependency
`/mc/A.swiftmodule` is a cached module whose embedded dependency list
itself names the cached path `/mc/B.swiftmodule`; the builder emits that
embedded entry verbatim, so the serialized record list contains a path
with the binary-module extension under the user cache directory. -/
theorem claim_C5_counterexample :
    isCachedModule ctxNestedCached "/mc/A.swiftmodule" = true ∧
    (collectDepsForSerialization ctxNestedCached false
        ["/mc/A.swiftmodule"] "/I.swiftinterface").map
      (fun st => st.deps.any fun d => isCachedModule ctxNestedCached d.path)
      = some true :=
  ⟨by decide, by decide⟩

/-- C5 as amended.  Under the additional hypotheses that the embedded
dependency lists of readable cached modules are themselves flattened
(true of the builder's own outputs), that the cache directories are
unset or absolute, and that the raw dependency names are normalized
(no doubled separators), no Dependency Record emitted for serialization
has a cached-module path — every cached raw dependency having been
replaced by its embedded list.  Moreover duplicate suppression keys the
`AllDepNames` set on the original (unrewritten) path: listing the same
cached module twice produces exactly the run of listing it once. -/
theorem claim_C5_transitive_flattening :
    (∀ (ctx : BuildCtx) (hb : Bool) (rawDeps : List String)
        (interfacePath : String) (st : CollectState),
      cacheDirsAbsolute ctx →
      embeddedListsFlattened ctx →
      (∀ n ∈ rawDeps ++ [interfacePath],
        noAdjacentSlashes n.data = true) →
      collectDepsForSerialization ctx hb rawDeps interfacePath =
        some st →
      ∀ d ∈ st.deps, isCachedModule ctx d.path = false) ∧
    (∀ (ctx : BuildCtx) (hb : Bool) (l : List String)
        (d interfacePath : String),
      isCachedModule ctx d = true →
      collectDepsForSerialization ctx hb (l ++ [d, d]) interfacePath =
        collectDepsForSerialization ctx hb (l ++ [d]) interfacePath) := by
  constructor
  · intro ctx hb rawDeps interfacePath st habs hflat hnames hrun
    exact collectAll_deps_not_cached ctx hb habs hflat
      (rawDeps ++ [interfacePath]) _ st hnames
      (by intro d hd; cases hd) hrun
  · intro ctx hb l d interfacePath hc
    unfold collectDepsForSerialization
    have h1 : (l ++ [d, d]) ++ [interfacePath] =
        l ++ ([d, d] ++ [interfacePath]) := by
      rw [List.append_assoc]
    have h2 : (l ++ [d]) ++ [interfacePath] =
        l ++ ([d] ++ [interfacePath]) := by
      rw [List.append_assoc]
    rw [h1, h2, collectAll_bind, collectAll_bind]
    cases collectAll ctx hb { seen := [], deps := [], tracked := [] } l with
    | none => rfl
    | some stL =>
      show (match collectOne ctx hb stL d with
            | none => none
            | some s2 => collectAll ctx hb s2 ([d] ++ [interfacePath])) =
          (match collectOne ctx hb stL d with
            | none => none
            | some s2 => collectAll ctx hb s2 [interfacePath])
      cases hone : collectOne ctx hb stL d with
      | none => rfl
      | some s2 =>
        show (match collectOne ctx hb s2 d with
              | none => none
              | some s3 => collectAll ctx hb s3 [interfacePath]) =
            collectAll ctx hb s2 [interfacePath]
        rw [collectOne_cached_repeat ctx hb stL s2 d hc hone]

/-- Witness for the amended C5: a run over plain files yields only
non-cached records, and a doubled cached module collapses to a single
processing. -/
theorem claim_C5_witness :
    isCachedModule ctxPlainBuild "/a.h" = false ∧
    collectDepsForSerialization ctxNestedCached false
        ([] ++ ["/mc/A.swiftmodule", "/mc/A.swiftmodule"])
        "/I.swiftinterface" =
      collectDepsForSerialization ctxNestedCached false
        ([] ++ ["/mc/A.swiftmodule"]) "/I.swiftinterface" := by
  constructor
  · exact (claim_C5_transitive_flattening.1 ctxPlainBuild false ["/a.h"]
      "/I.swiftinterface" stPlainResult
      (by unfold cacheDirsAbsolute; decide)
      (fun p _ buf hbuf => nomatch hbuf) (by decide) (by decide))
      { path := "/a.h", sdkRelative := false, size := 3,
        verifier := .modTime 4 }
      (by decide)
  · exact claim_C5_transitive_flattening.2 ctxNestedCached false []
      "/mc/A.swiftmodule" "/I.swiftinterface" (by decide)

/-- Witness for C9 on the concrete prebuilt-module state. -/
theorem claim_C9_witness :
    fwdPrebuilt.underlyingModulePath = "/pb/M.swiftmodule" ∧
    (∃ st, ctxPrebuilt.fs.stat "/pb/M.swiftmodule" = some st ∧
      fwdPrebuilt.dependencies.head? = some
        { path := "/pb/M.swiftmodule", size := st.size,
          lastModificationTime := st.mtime }) ∧
    (∀ (ctx2 : LoaderCtx) (buf2 : Buffer),
      forwardingModuleIsUpToDate ctx2 fwdPrebuilt = some buf2 →
      (∃ buf, ctx2.fs.openFile "/pb/M.swiftmodule" = .ok buf ∧
        buf.validAST.isSome = true) ∧
      (∃ st st2, ctxPrebuilt.fs.stat "/pb/M.swiftmodule" = some st ∧
        ctx2.fs.stat "/pb/M.swiftmodule" = some st2 ∧
        st2.size = st.size ∧ st2.mtime = st.mtime)) :=
  claim_C9_forwarding_self_dependency ctxPrebuilt "/pb/M.swiftmodule"
    depsPrebuilt fwdPrebuilt (by decide)

end PIML
